import Mathlib

/-!
Verification of the pm-backend project-state service.

This file gives a shallow embedding of the plan state-transition pipeline of
the repository and proves properties about it:

* a JSON value model together with a parser and serializer modelling the
  Python `json.loads` / `json.dumps` library calls used by the code
  (`src/llm_agents.py`, `src/main.py`);
* the plan schema validator `ProjectPlan` (`src/schemas.py`);
* the LLM client retry loop `call_deepseek_llm` and the agent wrappers
  `state_updater_llm` / `recommender_llm` (`src/llm_agents.py`);
* the endpoint pipelines `get_project`, `update_project_state` and
  `recommend_project_state` (`src/main.py`), with the database modelled as a
  list of rows and the external LLM call modelled as an oracle outcome;
* the retrieval-context assembler `get_rag_context`
  (`src/gemini_rag_service.py`), with the external fetch of each document
  modelled by its outcome.
-/

/-- Model of a Python JSON value as produced by `json.loads`.  Numerals are
kept as their source lexeme (the claims under study never inspect numeric
values, and Python represents them as int/float). -/
inductive Json where
  | null
  | bool (b : Bool)
  | num (lexeme : String)
  | str (s : String)
  | arr (elems : List Json)
  | obj (entries : List (String × Json))

/-- The opening-brace character, written via its code point. -/
def lbraceC : Char := Char.ofNat 123

/-- The closing-brace character, written via its code point. -/
def rbraceC : Char := Char.ofNat 125

/-- JSON whitespace characters accepted between tokens. -/
def isWsC (c : Char) : Bool := c = ' ' || c = '\t' || c = '\n' || c = '\r'

/-- Drop leading JSON whitespace. -/
def skipWs : List Char → List Char
  | [] => []
  | c :: cs => if isWsC c then skipWs cs else c :: cs

/-- Match an expected literal character sequence, returning the remainder. -/
def matchLit : List Char → List Char → Option (List Char)
  | [], cs => some cs
  | _ :: _, [] => none
  | p :: ps, c :: cs => if c = p then matchLit ps cs else none

/-- Value of one hexadecimal digit. -/
def hexVal (c : Char) : Option Nat :=
  if '0' ≤ c ∧ c ≤ '9' then some (c.toNat - 48)
  else if 'a' ≤ c ∧ c ≤ 'f' then some (c.toNat - 87)
  else if 'A' ≤ c ∧ c ≤ 'F' then some (c.toNat - 55)
  else none

/-- Decode a single-character JSON string escape. -/
def escDecode (e : Char) : Option Char :=
  if e = '"' then some '"'
  else if e = '\\' then some '\\'
  else if e = '/' then some '/'
  else if e = 'n' then some '\n'
  else if e = 't' then some '\t'
  else if e = 'r' then some '\r'
  else if e = 'b' then some (Char.ofNat 8)
  else if e = 'f' then some (Char.ofNat 12)
  else none

/-- Parse the body of a JSON string literal after the opening quote.  Raw
control characters are rejected as in the strict Python decoder; backslash-u
escapes are decoded directly (surrogate pairing of escapes above the basic
plane is not modelled, the repository never stores such plans). -/
def parseStrBody : Nat → List Char → Option (String × List Char)
  | 0, _ => none
  | fuel + 1, cs =>
    match cs with
    | [] => none
    | c :: cs1 =>
      if c = '"' then some ("", cs1)
      else if c = '\\' then
        match cs1 with
        | [] => none
        | e :: cs2 =>
          if e = 'u' then
            match cs2 with
            | h1 :: h2 :: h3 :: h4 :: cs3 =>
              match hexVal h1, hexVal h2, hexVal h3, hexVal h4 with
              | some a, some b, some c4, some d =>
                match parseStrBody fuel cs3 with
                | some (s, rest) =>
                  some (String.singleton (Char.ofNat (4096 * a + 256 * b + 16 * c4 + d)) ++ s, rest)
                | none => none
              | _, _, _, _ => none
            | _ => none
          else
            match escDecode e with
            | some d =>
              match parseStrBody fuel cs2 with
              | some (s, rest) => some (String.singleton d ++ s, rest)
              | none => none
            | none => none
      else if c.toNat < 32 then none
      else
        match parseStrBody fuel cs1 with
        | some (s, rest) => some (String.singleton c ++ s, rest)
        | none => none

/-- Take a maximal run of decimal digits. -/
def takeDigits : List Char → List Char × List Char
  | [] => ([], [])
  | c :: cs =>
    if '0' ≤ c ∧ c ≤ '9' then
      let p := takeDigits cs
      (c :: p.1, p.2)
    else ([], c :: cs)

/-- Parse the optional exponent part of a JSON number, given the lexeme so far. -/
def parseExpPart (acc : List Char) (cs : List Char) : Option (String × List Char) :=
  match cs with
  | [] => some (String.mk acc, [])
  | c :: rest =>
    if c = 'e' ∨ c = 'E' then
      match rest with
      | [] => none
      | s :: rest2 =>
        if s = '+' ∨ s = '-' then
          match takeDigits rest2 with
          | (d :: ds, rest3) => some (String.mk (acc ++ c :: s :: d :: ds), rest3)
          | ([], _) => none
        else
          match takeDigits rest with
          | (d :: ds, rest3) => some (String.mk (acc ++ c :: d :: ds), rest3)
          | ([], _) => none
    else some (String.mk acc, cs)

/-- Parse the optional fraction part of a JSON number followed by the
optional exponent, given the integer-part lexeme. -/
def parseFracExp (acc : List Char) (cs : List Char) : Option (String × List Char) :=
  match cs with
  | [] => some (String.mk acc, [])
  | c :: rest =>
    if c = '.' then
      match takeDigits rest with
      | (d :: ds, rest2) => parseExpPart (acc ++ c :: d :: ds) rest2
      | ([], _) => none
    else parseExpPart acc cs

/-- Parse a JSON number lexeme (sign, integer part without leading zeros,
optional fraction, optional exponent), as in the Python decoder grammar. -/
def parseNumber (cs : List Char) : Option (String × List Char) :=
  let core := fun (sign : List Char) (cs1 : List Char) =>
    match cs1 with
    | [] => none
    | c :: rest =>
      if c = '0' then parseFracExp (sign ++ [c]) rest
      else if '1' ≤ c ∧ c ≤ '9' then
        let p := takeDigits rest
        parseFracExp (sign ++ c :: p.1) p.2
      else none
  match cs with
  | [] => none
  | c :: rest => if c = '-' then core [c] rest else core [] (c :: rest)

/-- Insert a key/value pair into an object under construction.  As in a
Python dict literal built by the decoder, a duplicated key overwrites the
earlier value in place. -/
def insertKV (acc : List (String × Json)) (k : String) (v : Json) : List (String × Json) :=
  if acc.any (fun kv => kv.1 == k) then
    acc.map (fun kv => if kv.1 == k then (k, v) else kv)
  else acc ++ [(k, v)]

mutual

/-- Recursive-descent JSON value parser modelling `json.loads`; the fuel
argument only bounds nesting and is chosen large enough at the top level. -/
def parseValue : Nat → List Char → Except String (Json × List Char)
  | 0, _ => .error "Expecting value"
  | fuel + 1, cs =>
    match skipWs cs with
    | [] => .error "Expecting value"
    | c :: rest =>
      if c = lbraceC then parseMembers fuel rest []
      else if c = '[' then parseElems fuel rest []
      else if c = '"' then
        match parseStrBody (rest.length + 1) rest with
        | some (s, rest2) => .ok (Json.str s, rest2)
        | none => .error "Unterminated string"
      else if c = 'n' then
        match matchLit ['u', 'l', 'l'] rest with
        | some rest2 => .ok (Json.null, rest2)
        | none => .error "Expecting value"
      else if c = 't' then
        match matchLit ['r', 'u', 'e'] rest with
        | some rest2 => .ok (Json.bool true, rest2)
        | none => .error "Expecting value"
      else if c = 'f' then
        match matchLit ['a', 'l', 's', 'e'] rest with
        | some rest2 => .ok (Json.bool false, rest2)
        | none => .error "Expecting value"
      else
        match parseNumber (c :: rest) with
        | some (lx, rest2) => .ok (Json.num lx, rest2)
        | none => .error "Expecting value"

/-- Parse array elements after the opening bracket. -/
def parseElems : Nat → List Char → List Json → Except String (Json × List Char)
  | 0, _, _ => .error "Expecting value"
  | fuel + 1, cs, acc =>
    match skipWs cs with
    | [] => .error "Expecting value"
    | c :: rest =>
      if c = ']' ∧ acc.isEmpty then .ok (Json.arr [], rest)
      else
        match parseValue fuel cs with
        | .error e => .error e
        | .ok (v, rest2) =>
          match skipWs rest2 with
          | [] => .error "Unterminated array"
          | c2 :: rest3 =>
            if c2 = ',' then parseElems fuel rest3 (acc ++ [v])
            else if c2 = ']' then .ok (Json.arr (acc ++ [v]), rest3)
            else .error "Expecting comma"

/-- Parse object members after the opening brace. -/
def parseMembers : Nat → List Char → List (String × Json) → Except String (Json × List Char)
  | 0, _, _ => .error "Expecting value"
  | fuel + 1, cs, acc =>
    match skipWs cs with
    | [] => .error "Expecting value"
    | c :: rest =>
      if c = rbraceC ∧ acc.isEmpty then .ok (Json.obj [], rest)
      else if c = '"' then
        match parseStrBody (rest.length + 1) rest with
        | none => .error "Unterminated string"
        | some (k, rest2) =>
          match skipWs rest2 with
          | [] => .error "Unterminated object"
          | c2 :: rest3 =>
            if c2 = ':' then
              match parseValue fuel rest3 with
              | .error e => .error e
              | .ok (v, rest4) =>
                match skipWs rest4 with
                | [] => .error "Unterminated object"
                | c3 :: rest5 =>
                  if c3 = ',' then parseMembers fuel rest5 (insertKV acc k v)
                  else if c3 = rbraceC then .ok (Json.obj (insertKV acc k v), rest5)
                  else .error "Expecting comma"
            else .error "Expecting colon"
      else .error "Expecting property name"

end

/-- Model of `json.loads`: parse the whole input string, rejecting trailing
garbage.  Failure models the raised `json.JSONDecodeError`. -/
def jsonLoads (s : String) : Except String Json :=
  match parseValue (2 * s.length + 4) s.toList with
  | .error e => .error e
  | .ok (j, rest) =>
    match skipWs rest with
    | [] => .ok j
    | _ => .error "Extra data"

/-- One lowercase hexadecimal digit. -/
def hexDigitChar (n : Nat) : Char :=
  if n < 10 then Char.ofNat (48 + n) else Char.ofNat (87 + n)

/-- Four-digit lowercase hexadecimal rendering used by JSON escapes. -/
def hex4 (n : Nat) : String :=
  String.mk [hexDigitChar (n / 4096 % 16), hexDigitChar (n / 256 % 16),
    hexDigitChar (n / 16 % 16), hexDigitChar (n % 16)]

/-- Escape one character the way `json.dumps` does with its default
`ensure_ascii=True` (astral characters would use surrogate pairs in Python;
they do not occur in the plans under study). -/
def escChar (c : Char) : String :=
  if c = '"' then "\\\""
  else if c = '\\' then "\\\\"
  else if c = '\n' then "\\n"
  else if c = '\t' then "\\t"
  else if c = '\r' then "\\r"
  else if c = Char.ofNat 8 then "\\b"
  else if c = Char.ofNat 12 then "\\f"
  else if c.toNat < 32 then "\\u" ++ hex4 c.toNat
  else if 127 ≤ c.toNat then "\\u" ++ hex4 c.toNat
  else String.singleton c

/-- Serialize a string literal as `json.dumps` does. -/
def dumpStr (s : String) : String :=
  "\"" ++ String.join (s.toList.map escChar) ++ "\""

mutual

/-- Model of `json.dumps` with its default separators. -/
def dumpJson : Json → String
  | Json.null => "null"
  | Json.bool true => "true"
  | Json.bool false => "false"
  | Json.num lx => lx
  | Json.str s => dumpStr s
  | Json.arr xs => "[" ++ dumpList xs ++ "]"
  | Json.obj kvs => String.singleton lbraceC ++ dumpMembers kvs ++ String.singleton rbraceC

/-- Serialize array elements, comma-separated. -/
def dumpList : List Json → String
  | [] => ""
  | [x] => dumpJson x
  | x :: xs => dumpJson x ++ ", " ++ dumpList xs

/-- Serialize object members, comma-separated. -/
def dumpMembers : List (String × Json) → String
  | [] => ""
  | [(k, v)] => dumpStr k ++ ": " ++ dumpJson v
  | (k, v) :: rest => dumpStr k ++ ": " ++ dumpJson v ++ ", " ++ dumpMembers rest

end

/-- Test whether a JSON value is an object (a Python mapping). -/
def isObjJ : Json → Bool
  | Json.obj _ => true
  | _ => false

/-- Test whether a JSON value is a string. -/
def isStrJ : Json → Bool
  | Json.str _ => true
  | _ => false

/-- Pydantic check for the field type `List[Dict[str, Any]]` used by
`ProjectPlan.tasks` and `ProjectPlan.milestones` in `src/schemas.py`. -/
def checkDictList : Json → Bool
  | Json.arr xs => xs.all isObjJ
  | _ => false

/-- Pydantic check for the field type `List[str]` used by
`ProjectPlan.risks` in `src/schemas.py`. -/
def checkStrList : Json → Bool
  | Json.arr xs => xs.all isStrJ
  | _ => false

/-- First-binding lookup in an object entry list (Python dict access). -/
def lookupJ : List (String × Json) → String → Option Json
  | [], _ => none
  | (k, v) :: rest, key => if k = key then some v else lookupJ rest key

/-- Failure of `ProjectPlan(**value)`: either the double-star unpacking of a
non-mapping raised `TypeError`, or pydantic raised `ValidationError` on an
ill-typed field. -/
inductive PlanError where
  | notMapping (msg : String)
  | invalid (msg : String)

/-- Validate one `ProjectPlan` field: an absent field takes the
`default_factory=list` default, a present field must satisfy its type. -/
def fieldOk (kvs : List (String × Json)) (key : String) (check : Json → Bool) :
    Except PlanError Json :=
  match lookupJ kvs key with
  | none => .ok (Json.arr [])
  | some v => if check v then .ok v else .error (.invalid key)

/-- The three declared field names of `ProjectPlan`. -/
def coreKeys : List String := ["tasks", "risks", "milestones"]

/-- Model of `schemas.ProjectPlan(**value).model_dump()`: a non-mapping value
fails on unpacking; a mapping is validated field by field with list defaults
for absent fields; extra keys are allowed (`extra = "allow"`) and preserved
in the dump after the declared fields. -/
def validatePlan : Json → Except PlanError (List (String × Json))
  | Json.obj kvs =>
    match fieldOk kvs "tasks" checkDictList with
    | .error err => .error err
    | .ok t =>
      match fieldOk kvs "risks" checkStrList with
      | .error err => .error err
      | .ok r =>
        match fieldOk kvs "milestones" checkDictList with
        | .error err => .error err
        | .ok m =>
          .ok (("tasks", t) :: ("risks", r) :: ("milestones", m) ::
            kvs.filter fun kv =>
              kv.1 != "tasks" && kv.1 != "risks" && kv.1 != "milestones")
  | _ => .error (.notMapping "argument after ** must be a mapping")

/-- Whether an `Except` result is a success. -/
def isOkE {ε α : Type} : Except ε α → Bool
  | .ok _ => true
  | .error _ => false

/-- Decide whether the pattern occurs at the head of the text. -/
def charsHasPre : List Char → List Char → Bool
  | [], _ => true
  | _ :: _, [] => false
  | p :: ps, c :: cs => p == c && charsHasPre ps cs

/-- Decide whether the pattern occurs anywhere in the text, as the Python
substring operator `in` does. -/
def charsContains : List Char → List Char → Bool
  | [], pat => pat.isEmpty
  | c :: rest, pat => charsHasPre pat (c :: rest) || charsContains rest pat

/-- Python `pat in s` on strings. -/
def containsSub (s pat : String) : Bool := charsContains s.toList pat.toList

/-- The transient-error keywords of `call_deepseek_llm`
(`src/llm_agents.py` lines 59-62). -/
def transientKeywords : List String :=
  ["rate limit", "timeout", "connection", "temporary", "try again"]

/-- ASCII lowercasing of one character, as Python `str.lower` acts on the
ASCII range (the keywords below are ASCII). -/
def lowerChar (c : Char) : Char :=
  if 'A' ≤ c ∧ c ≤ 'Z' then Char.ofNat (c.toNat + 32) else c

/-- Lowercase rendering `str(e).lower()` of an exception message. -/
def lowerStr (s : String) : String := String.mk (s.toList.map lowerChar)

/-- Transient classification of `call_deepseek_llm`: the lowercased string
rendering of the exception contains one of the keywords. -/
def isTransientErr (e : String) : Bool :=
  transientKeywords.any fun kw => containsSub (lowerStr e) kw

/-- The `RuntimeError` message raised by `call_deepseek_llm` after its last
attempt, embedding the attempt count and the underlying error. -/
def deepseekFailMsg (attempts : Nat) (e : String) : String :=
  "DeepSeek LLM call failed after " ++ toString attempts ++ " attempts: " ++ e

/-- The retry loop of `call_deepseek_llm`, with the outcome of the
completion request on each attempt supplied by the oracle `api` (success
content or rendered exception).  `fuel` is the number of attempts still
allowed after the current one, so the loop starts with
`fuel = max_retries`; the returned list records the backoff delays slept,
in seconds, one per performed retry. -/
def call_deepseek_llm_go (api : Nat → Except String String) :
    Nat → Nat → Except String String × List Nat
  | attempt, fuel =>
    match api attempt with
    | .ok content => (.ok content, [])
    | .error e =>
      match fuel with
      | 0 => (.error (deepseekFailMsg (attempt + 1) e), [])
      | f + 1 =>
        if isTransientErr e then
          let rest := call_deepseek_llm_go api (attempt + 1) f
          (rest.1, 2 ^ attempt :: rest.2)
        else (.error (deepseekFailMsg (attempt + 1) e), [])

/-- Model of `call_deepseek_llm(messages, json_mode, max_retries)`: attempts
are numbered from 0 and the loop performs at most `max_retries + 1` of
them. -/
def call_deepseek_llm (api : Nat → Except String String) (maxRetries : Nat) :
    Except String String × List Nat :=
  call_deepseek_llm_go api 0 maxRetries

/-- Model of `state_updater_llm(current_plan, update_text)`.  The prompt is
built from the current plan and update text; `raw` is the outcome of the
`call_deepseek_llm` invocation on that prompt (the external network call).
A `RuntimeError` from the client is re-raised; unparsable JSON raises
`ValueError` with the raw response attached; a response failing schema
validation raises `ValueError` with the raw response attached; unpacking a
non-mapping raises `TypeError`, which the outer handler wraps into
`RuntimeError`. -/
def state_updater_llm (currentPlan : Json) (updateText : String)
    (raw : Except String String) : Except String (List (String × Json)) :=
  match raw with
  | .error e => .error e
  | .ok s =>
    match jsonLoads s with
    | .error perr => .error ("LLM returned invalid JSON: " ++ perr ++ "\nResponse: " ++ s)
    | .ok j =>
      match validatePlan j with
      | .error (PlanError.notMapping m) => .error ("State updater LLM failed: " ++ m)
      | .error (PlanError.invalid m) =>
          .error ("LLM returned invalid plan structure or data: " ++ m ++ "\nResponse: " ++ s)
      | .ok pd => .ok pd

/-- Model of `recommender_llm(current_plan, user_question)` with the
outcome of its `call_deepseek_llm` invocation supplied as `raw`: a client
failure is re-raised, a whitespace-only response raises `ValueError`, and
any other response is returned verbatim. -/
def recommender_llm (currentPlan : Json) (userQuestion : String)
    (raw : Except String String) : Except String String :=
  match raw with
  | .error e => .error e
  | .ok md => if md.trim = "" then .error "LLM returned empty response" else .ok md

/-- One row of the `projects` table (`src/models.py`): the `plan_json` text
column is declared nullable, hence the `Option`. -/
structure ProjectRow where
  id : Nat
  name : String
  plan_json : Option String

/-- An HTTP error response raised by an endpoint. -/
structure HttpError where
  statusCode : Nat
  detail : String

/-- Model of `select(Project).filter(Project.id == pid)` followed by
`.first()`: the first row whose id matches. -/
def findProject : List ProjectRow → Nat → Option ProjectRow
  | [], _ => none
  | r :: rest, pid => if r.id == pid then some r else findProject rest pid

/-- The default plan value substituted by the endpoints for a missing
stored plan. -/
def emptyPlanJson : Json :=
  Json.obj [("tasks", Json.arr []), ("risks", Json.arr []), ("milestones", Json.arr [])]

/-- The plan-loading step repeated in `get_project`,
`update_project_state` and `recommend_project_state`: when the stored
`plan_json` is `NULL` or empty (Python falsy) the empty default plan is
used, otherwise the stored text is parsed; a parse failure propagates
(to the global exception handler). -/
def load_current_plan (pj : Option String) : Except String Json :=
  match pj with
  | none => .ok emptyPlanJson
  | some s => if s = "" then .ok emptyPlanJson else jsonLoads s

/-- The response body of `GET /project/(id)` after response-model
serialization: id, name, and the validated plan dump. -/
structure ProjectOut where
  id : Nat
  name : String
  plan : List (String × Json)

/-- The `ProjectBase` constraint on `name` (`min_length=1, max_length=255`)
checked when the response `schemas.Project` is constructed. -/
def nameOk (s : String) : Bool := 1 ≤ s.length && s.length ≤ 255

/-- Model of the `get_project` endpoint (`src/main.py` lines 82-101): look
the project up, load its plan with the empty-plan default, and build the
`schemas.Project` response, whose construction validates the name bounds
and the plan schema; any exception there surfaces as a 500 through the
global handler. -/
def get_project (db : List ProjectRow) (pid : Nat) : Except HttpError ProjectOut :=
  match findProject db pid with
  | none => .error ⟨404, "Project not found"⟩
  | some p =>
    match load_current_plan p.plan_json with
    | .error e =>
        .error ⟨500, "An unexpected error occurred while processing your request: " ++ e⟩
    | .ok planData =>
      if nameOk p.name then
        match validatePlan planData with
        | .error _ =>
            .error ⟨500, "An unexpected error occurred while processing your request: response validation failed"⟩
        | .ok plan => .ok ⟨p.id, p.name, plan⟩
      else
        .error ⟨500, "An unexpected error occurred while processing your request: response validation failed"⟩

/-- The ORM write `db_project.plan_json = json.dumps(new_plan)` followed by
commit: the row with the given primary key gets the new plan text. -/
def storePlan (db : List ProjectRow) (pid : Nat) (s : String) : List ProjectRow :=
  db.map fun r => if r.id == pid then { r with plan_json := some s } else r

/-- Overwrite the stored `plan_json` of a row, used to state observational
equivalences between databases. -/
def setPlanJson (db : List ProjectRow) (pid : Nat) (pj : Option String) : List ProjectRow :=
  db.map fun r => if r.id == pid then { r with plan_json := pj } else r

/-- Outcome of one `update_project_state` request: the HTTP response, the
database after the request, and whether the LLM client was invoked. -/
structure UpdateResult where
  response : Except HttpError (Nat × List (String × Json))
  db : List ProjectRow
  llmCalled : Bool

/-- Model of the `POST /project/update` endpoint (`src/main.py` lines
112-145).  The project is looked up first (404 before anything else); the
current plan is loaded with the empty default (a stored-text parse failure
propagates before the LLM is called); then `state_updater_llm` runs, any
exception from it becoming a 500 whose detail starts with
`LLM State Update failed: `; only on success is the new plan serialized
and persisted, and the response returns the row id with the new plan. -/
def update_project_state (db : List ProjectRow) (pid : Nat) (updateText : String)
    (raw : Except String String) : UpdateResult :=
  match findProject db pid with
  | none => ⟨.error ⟨404, "Project not found"⟩, db, false⟩
  | some p =>
    match load_current_plan p.plan_json with
    | .error e =>
        ⟨.error ⟨500, "An unexpected error occurred while processing your request: " ++ e⟩,
          db, false⟩
    | .ok currentPlan =>
      match state_updater_llm currentPlan updateText raw with
      | .error e => ⟨.error ⟨500, "LLM State Update failed: " ++ e⟩, db, true⟩
      | .ok newPlan =>
          ⟨.ok (p.id, newPlan), storePlan db pid (dumpJson (Json.obj newPlan)), true⟩

/-- Model of the `POST /project/recommend` endpoint (`src/main.py` lines
147-174): the same lookup and plan-loading steps, then `recommender_llm`;
no branch writes to the database. -/
def recommend_project_state (db : List ProjectRow) (pid : Nat) (question : String)
    (raw : Except String String) : Except HttpError (Nat × String) × List ProjectRow :=
  match findProject db pid with
  | none => (.error ⟨404, "Project not found"⟩, db)
  | some p =>
    match load_current_plan p.plan_json with
    | .error e =>
        (.error ⟨500, "An unexpected error occurred while processing your request: " ++ e⟩, db)
    | .ok currentPlan =>
      match recommender_llm currentPlan question raw with
      | .error e => (.error ⟨500, "LLM Recommendation failed: " ++ e⟩, db)
      | .ok md => (.ok (p.id, md), db)

/-- Call the recommendation endpoint `n` times in succession, threading the
database through. -/
def recommend_times : Nat → List ProjectRow → Nat → String → Except String String →
    List ProjectRow
  | 0, db, _, _, _ => db
  | n + 1, db, pid, q, raw => recommend_times n (recommend_project_state db pid q raw).2 pid q raw

/-- Outcome of the external Gemini fetch for one document inside the
`get_rag_context` loop: `genai.get_file` returned nothing, or returned a
file handle with a state and text content, or some step of the per-document
body raised. -/
inductive GeminiFetch where
  | missing
  | file (state : String) (text : String)
  | raises (msg : String)

/-- One row of the `project_documents` table for the queried project, in
`uploaded_at` ascending order, together with the outcome of its external
fetch.  The timestamp is carried in its `strftime` rendering. -/
structure DocRow where
  file_name : String
  uploaded_at : String
  gemini_corpus_doc_id : String
  outcome : GeminiFetch

/-- The delimited per-document block built by `get_rag_context`
(`src/gemini_rag_service.py` lines 102-108). -/
def formatDocContext (d : DocRow) (content : String) : String :=
  "--- Document: " ++ d.file_name ++ " ---\n" ++
  "Uploaded: " ++ d.uploaded_at ++ "\n" ++
  "Gemini ID: " ++ d.gemini_corpus_doc_id ++ "\n\n" ++
  content ++ "\n--- End Document ---"

/-- The per-document part of the loop body: a missing file, a non-ACTIVE
state, empty content, or a raised exception all skip the document
(`continue`); otherwise the formatted block is produced. -/
def retrieveBlock (d : DocRow) : Option String :=
  match d.outcome with
  | .missing => none
  | .raises _ => none
  | .file st txt =>
    if st != "ACTIVE" then none
    else if txt == "" then none
    else some (formatDocContext d txt)

/-- The accumulation loop of `get_rag_context`: before appending a block,
if the accumulated `total` plus the own length of the block would exceed the
budget, the loop breaks; otherwise the block is appended and `total` grows
by the length of the block (the join separators are not counted). -/
def assembleGo (maxLen : Nat) : List DocRow → List String → Nat → List String
  | [], parts, _ => parts
  | d :: rest, parts, total =>
    match retrieveBlock d with
    | none => assembleGo maxLen rest parts total
    | some block =>
      if total + block.length > maxLen then parts
      else assembleGo maxLen rest (parts ++ [block]) (total + block.length)

/-- Python `"\n\n".join(parts)`. -/
def joinBlocks : List String → String
  | [] => ""
  | [b] => b
  | b :: rest => b ++ "\n\n" ++ joinBlocks rest

/-- Model of `get_rag_context(db_session, project_id, max_context_length)`.
The argument `query` is the outcome of the storage query for the
documents of the project: a raised storage exception is absorbed into `""` by the outer
handler; an empty document list returns `""` early; otherwise the
accumulated blocks are joined with blank lines. -/
def get_rag_context (query : Except String (List DocRow)) (maxLen : Nat) : String :=
  match query with
  | .error _ => ""
  | .ok docs =>
    if docs.isEmpty then ""
    else joinBlocks (assembleGo maxLen docs [] 0)

/-- The list of blocks accepted by `get_rag_context` for a given query
outcome and budget. -/
def acceptedParts (query : Except String (List DocRow)) (maxLen : Nat) : List String :=
  match query with
  | .error _ => []
  | .ok docs => if docs.isEmpty then [] else assembleGo maxLen docs [] 0

/-- Sum of the character lengths of a list of strings. -/
def sumLen : List String → Nat
  | [] => 0
  | s :: rest => s.length + sumLen rest

/-- Whether the fetch outcome of a document makes the loop skip it. -/
def fetchFails : GeminiFetch → Bool
  | .missing => true
  | .raises _ => true
  | .file st txt => st != "ACTIVE" || txt == ""

/-- Timestamp rendering used by the concrete example documents. -/
def exTs : String := "2024-01-15 10:30:00"

/-- Forty-six distinct two-character Gemini file ids. -/
def exC1ids : List String :=
  ["aa", "ab", "ac", "ad", "ae", "af", "ag", "ah", "ai", "aj", "ak", "al", "am",
   "an", "ao", "ap", "aq", "ar", "as", "at", "au", "av", "aw", "ax", "ay", "az",
   "ba", "bb", "bc", "bd", "be", "bf", "bg", "bh", "bi", "bj", "bk", "bl", "bm",
   "bn", "bo", "bp", "bq", "br", "bs", "bt"]

/-- Forty-six documents of an example project, each active with one
character of content, so each formatted block is 86 characters long. -/
def exC1docs : List DocRow :=
  exC1ids.map fun gid => ⟨"", exTs, gid, .file "ACTIVE" "x"⟩

/-- Example documents whose retrieval all fails: one missing external
file, one not yet ACTIVE, one with empty content, and one whose
processing raises. -/
def exC8docs : List DocRow :=
  [⟨"a.txt", exTs, "g1", .missing⟩,
   ⟨"b.txt", exTs, "g2", .file "PROCESSING" "data"⟩,
   ⟨"c.txt", exTs, "g3", .file "ACTIVE" ""⟩,
   ⟨"d.txt", exTs, "g4", .raises "network unreachable"⟩]

/-- Oracle for an API that fails transiently once and then succeeds. -/
def apiRecover : Nat → Except String String
  | 0 => .error "Connection timeout"
  | _ => .ok "ok"

/-- Oracle for an API that fails transiently on every attempt. -/
def apiTimeouts : Nat → Except String String := fun _ => .error "Connection timeout"

/-- Oracle for an API that fails permanently on the first attempt. -/
def apiPermanent : Nat → Except String String := fun _ => .error "Invalid API key"

/-- Example project row whose stored plan is NULL. -/
def exRowNull : ProjectRow := ⟨1, "Demo", none⟩

/-- Example single-project database with a NULL stored plan. -/
def exDbNull : List ProjectRow := [exRowNull]

/-- Example well-formed plan entries with an extra top-level key. -/
def exPlanKvs : List (String × Json) :=
  [("owner", Json.str "zirpo"),
   ("tasks", Json.arr [Json.obj [("id", Json.num "1"), ("name", Json.str "Design API"),
      ("status", Json.str "done")]]),
   ("risks", Json.arr [Json.str "Budget overrun"]),
   ("milestones", Json.arr [Json.obj [("id", Json.num "1"),
      ("name", Json.str "MVP Release")]])]

/-- Example mapping with `tasks` and `milestones` absent, `risks`
well-typed, and an extra key. -/
def exC5Kvs : List (String × Json) :=
  [("extra", Json.null), ("risks", Json.arr [Json.str "late"])]

theorem sumLen_append_single (l : List String) (s : String) :
    sumLen (l ++ [s]) = sumLen l + s.length := by
  induction l with
  | nil => simp [sumLen]
  | cons a t ih => simp [sumLen, ih]; omega

theorem joinBlocks_length :
    ∀ parts : List String, (joinBlocks parts).length = sumLen parts + 2 * (parts.length - 1)
  | [] => by simp [joinBlocks, sumLen]
  | [b] => by simp [joinBlocks, sumLen]
  | b :: c :: rest => by
    have ih := joinBlocks_length (c :: rest)
    have hsep : ("\n\n" : String).length = 2 := rfl
    simp only [joinBlocks, sumLen, String.length_append, List.length_cons] at ih ⊢
    omega

theorem assembleGo_sum_le (maxLen : Nat) :
    ∀ (docs : List DocRow) (parts : List String) (total : Nat),
      sumLen parts = total → total ≤ maxLen →
      sumLen (assembleGo maxLen docs parts total) ≤ maxLen
  | [], parts, total, h1, h2 => by simpa [assembleGo, h1] using h2
  | d :: rest, parts, total, h1, h2 => by
    cases hb : retrieveBlock d with
    | none =>
      simpa [assembleGo, hb] using assembleGo_sum_le maxLen rest parts total h1 h2
    | some block =>
      by_cases hc : total + block.length > maxLen
      · simpa [assembleGo, hb, hc, h1] using h2
      · have hs : sumLen (parts ++ [block]) = total + block.length := by
          rw [sumLen_append_single, h1]
        simpa [assembleGo, hb, hc] using
          assembleGo_sum_le maxLen rest (parts ++ [block]) (total + block.length) hs (by omega)

theorem assembleGo_all_fit (maxLen : Nat) :
    ∀ (docs : List DocRow) (parts : List String) (total : Nat),
      total + sumLen (docs.filterMap retrieveBlock) ≤ maxLen →
      assembleGo maxLen docs parts total = parts ++ docs.filterMap retrieveBlock
  | [], parts, total, _ => by simp [assembleGo]
  | d :: rest, parts, total, h => by
    cases hb : retrieveBlock d with
    | none =>
      have h' : total + sumLen (rest.filterMap retrieveBlock) ≤ maxLen := by
        simpa [List.filterMap_cons, hb] using h
      simp [assembleGo, hb, List.filterMap_cons,
        assembleGo_all_fit maxLen rest parts total h']
    | some block =>
      have hrw : (d :: rest).filterMap retrieveBlock =
          block :: rest.filterMap retrieveBlock := by
        simp [List.filterMap_cons, hb]
      rw [hrw] at h
      simp only [sumLen] at h
      have hc : ¬ (total + block.length > maxLen) := by omega
      have ih := assembleGo_all_fit maxLen rest (parts ++ [block])
        (total + block.length) (by omega)
      simp [assembleGo, hb, hc, ih, hrw]

theorem assembleGo_all_none (maxLen : Nat) :
    ∀ (docs : List DocRow) (parts : List String) (total : Nat),
      (∀ d ∈ docs, retrieveBlock d = none) →
      assembleGo maxLen docs parts total = parts
  | [], parts, total, _ => by simp [assembleGo]
  | d :: rest, parts, total, h => by
    have hb : retrieveBlock d = none := h d (by simp)
    have ih := assembleGo_all_none maxLen rest parts total
      (fun x hx => h x (by simp [hx]))
    simp [assembleGo, hb, ih]

theorem retrieveBlock_of_fetchFails (d : DocRow) (h : fetchFails d.outcome = true) :
    retrieveBlock d = none := by
  rcases d with ⟨n, u, g, o⟩
  cases o with
  | missing => rfl
  | raises m => rfl
  | file st txt =>
    simp only [fetchFails, Bool.or_eq_true, bne_iff_ne, beq_iff_eq] at h
    rcases h with h | h
    · simp [retrieveBlock, h]
    · subst h
      by_cases hst : st = "ACTIVE" <;> simp [retrieveBlock, hst]

/-- C1 (amended): for every storage-query outcome and budget, the context
returned by `get_rag_context` exceeds `max_context_length` by at most two
characters per blank-line separator between accepted blocks, that is, by
at most `2 * (number of accepted blocks - 1)`: the pre-append check bounds
the sum of the block lengths themselves by the budget, but the blank-line
separators inserted by the final join are not counted by that check. -/
theorem C1_context_budget (query : Except String (List DocRow)) (maxLen : Nat) :
    (get_rag_context query maxLen).length ≤
      maxLen + 2 * ((acceptedParts query maxLen).length - 1) := by
  cases query with
  | error e => simp [get_rag_context, acceptedParts]
  | ok docs =>
    by_cases hd : docs.isEmpty
    · simp [get_rag_context, acceptedParts, hd]
    · simp only [get_rag_context, acceptedParts, hd, Bool.false_eq_true, if_false]
      rw [joinBlocks_length]
      have := assembleGo_sum_le maxLen docs [] 0 rfl (Nat.zero_le _)
      omega

/-- C1 (counterexample): with forty-six one-character documents and a
budget of exactly the sum of the forty-six 86-character blocks, the
returned context is 4046 characters long, which exceeds the budget 3956 by
90 characters — more than the 86-character length of the last accepted
block.  The claim that the result never exceeds `max_context_length` by
more than the length of the last-accepted full block is therefore false. -/
theorem C1_counterexample :
    3956 + ((acceptedParts (.ok exC1docs) 3956).getLastD "").length
      < (get_rag_context (.ok exC1docs) 3956).length := by
  have hne : exC1docs.isEmpty = false := rfl
  have hfit := assembleGo_all_fit 3956 exC1docs [] 0 (by decide)
  have h1 : acceptedParts (.ok exC1docs) 3956 = exC1docs.filterMap retrieveBlock := by
    simp [acceptedParts, hne, hfit]
  have h2 : get_rag_context (.ok exC1docs) 3956 =
      joinBlocks (exC1docs.filterMap retrieveBlock) := by
    simp [get_rag_context, hne, hfit]
  rw [h1, h2, joinBlocks_length]
  have h3 : sumLen (exC1docs.filterMap retrieveBlock) = 3956 := by decide
  have h4 : (exC1docs.filterMap retrieveBlock).length = 46 := by decide
  have h5 : ((exC1docs.filterMap retrieveBlock).getLastD "").length = 86 := by decide
  omega

/-- C8: the Context Assembler returns the empty string, and no failure
propagates, when the storage query raises, when the document list is
empty, and when every document fails retrieval (missing external file,
non-ACTIVE state, empty content, or a raised exception — each skipped
individually). -/
theorem C8_context_empty_cases :
    (∀ (maxLen : Nat) (e : String), get_rag_context (.error e) maxLen = "")
  ∧ (∀ maxLen : Nat, get_rag_context (.ok []) maxLen = "")
  ∧ (∀ (maxLen : Nat) (docs : List DocRow),
      (∀ d ∈ docs, fetchFails d.outcome = true) →
      get_rag_context (.ok docs) maxLen = "") := by
  refine ⟨fun _ _ => rfl, fun _ => rfl, fun maxLen docs h => ?_⟩
  by_cases hd : docs.isEmpty
  · simp [get_rag_context, hd]
  · have hall := assembleGo_all_none maxLen docs [] 0
      (fun d hdm => retrieveBlock_of_fetchFails d (h d hdm))
    simp [get_rag_context, hd, hall, joinBlocks]

/-- C8 witness: the three empty-context cases at concrete inputs. -/
theorem C8_context_empty_cases_witness :
    get_rag_context (.error "database connection lost") 1000 = ""
  ∧ get_rag_context (.ok []) 1000 = ""
  ∧ get_rag_context (.ok exC8docs) 1000 = "" :=
  ⟨C8_context_empty_cases.1 1000 "database connection lost",
   C8_context_empty_cases.2.1 1000,
   C8_context_empty_cases.2.2 1000 exC8docs (by decide)⟩

theorem call_go_success (api : Nat → Except String String) (c : String) :
    ∀ (K fuel attempt : Nat), K ≤ fuel →
      (∀ j, j < K → ∃ e, api (attempt + j) = .error e ∧ isTransientErr e = true) →
      api (attempt + K) = .ok c →
      call_deepseek_llm_go api attempt fuel =
        (.ok c, (List.range K).map fun j => 2 ^ (attempt + j))
  | 0, fuel, attempt, _, _, hok => by
    rw [Nat.add_zero] at hok
    simp [call_deepseek_llm_go, hok]
  | K + 1, fuel, attempt, hK, herr, hok => by
    obtain ⟨e0, he0, ht0⟩ := herr 0 (Nat.succ_pos K)
    rw [Nat.add_zero] at he0
    obtain ⟨f, rfl⟩ : ∃ f, fuel = f + 1 := ⟨fuel - 1, by omega⟩
    have ih := call_go_success api c K f (attempt + 1) (by omega)
      (fun j hj => by
        obtain ⟨e, he, ht⟩ := herr (j + 1) (by omega)
        refine ⟨e, ?_, ht⟩
        rw [show attempt + 1 + j = attempt + (j + 1) from by omega]
        exact he)
      (by rw [show attempt + 1 + K = attempt + (K + 1) from by omega]; exact hok)
    have hfun : (fun j => 2 ^ (attempt + 1 + j)) = fun j => 2 ^ (attempt + Nat.succ j) := by
      funext j
      congr 1
      omega
    simp only [call_deepseek_llm_go, he0, ht0, if_true, ih]
    rw [List.range_succ_eq_map, List.map_cons, List.map_map]
    simp [Function.comp_def, hfun]

theorem call_go_exhaust (api : Nat → Except String String) :
    ∀ (fuel attempt : Nat) (e : String),
      (∀ j, j ≤ fuel → ∃ ej, api (attempt + j) = .error ej ∧ isTransientErr ej = true) →
      api (attempt + fuel) = .error e →
      call_deepseek_llm_go api attempt fuel =
        (.error (deepseekFailMsg (attempt + fuel + 1) e),
          (List.range fuel).map fun j => 2 ^ (attempt + j))
  | 0, attempt, e, _, hlast => by
    rw [Nat.add_zero] at hlast
    simp [call_deepseek_llm_go, hlast]
  | fuel + 1, attempt, e, herr, hlast => by
    obtain ⟨e0, he0, ht0⟩ := herr 0 (by omega)
    rw [Nat.add_zero] at he0
    have ih := call_go_exhaust api fuel (attempt + 1) e
      (fun j hj => by
        obtain ⟨ej, hej, htj⟩ := herr (j + 1) (by omega)
        refine ⟨ej, ?_, htj⟩
        rw [show attempt + 1 + j = attempt + (j + 1) from by omega]
        exact hej)
      (by rw [show attempt + 1 + fuel = attempt + (fuel + 1) from by omega]; exact hlast)
    have hmsg : attempt + 1 + fuel + 1 = attempt + (fuel + 1) + 1 := by omega
    rw [hmsg] at ih
    have hfun : (fun j => 2 ^ (attempt + 1 + j)) = fun j => 2 ^ (attempt + Nat.succ j) := by
      funext j
      congr 1
      omega
    simp only [call_deepseek_llm_go, he0, ht0, if_true, ih]
    rw [List.range_succ_eq_map, List.map_cons, List.map_map]
    simp [Function.comp_def, hfun]

/-- C3: `call_deepseek_llm` (i) returns the first success after exactly
`K` retries when the first `K ≤ max_retries` attempts fail transiently,
sleeping `2 ^ k` seconds before the retry following failed attempt `k`;
(ii) on sustained transient failure performs exactly `max_retries` retries
with backoff delays `1, 2, 4, ...` and then raises a `RuntimeError`
embedding the attempt count `max_retries + 1` and the last underlying
error; (iii) raises immediately with zero retries when the first error is
classified permanent. -/
theorem C3_retry_semantics (api : Nat → Except String String) (maxRetries : Nat) :
    (∀ (K : Nat) (c : String), K ≤ maxRetries →
        (∀ j, j < K → ∃ e, api j = .error e ∧ isTransientErr e = true) →
        api K = .ok c →
        call_deepseek_llm api maxRetries = (.ok c, (List.range K).map fun j => 2 ^ j))
  ∧ (∀ e : String,
        (∀ j, j ≤ maxRetries → ∃ ej, api j = .error ej ∧ isTransientErr ej = true) →
        api maxRetries = .error e →
        call_deepseek_llm api maxRetries =
          (.error (deepseekFailMsg (maxRetries + 1) e),
            (List.range maxRetries).map fun j => 2 ^ j))
  ∧ (∀ e : String, api 0 = .error e → isTransientErr e = false →
        call_deepseek_llm api maxRetries = (.error (deepseekFailMsg 1 e), [])) := by
  refine ⟨fun K c hK herr hok => ?_, fun e herr hlast => ?_, fun e h0 hperm => ?_⟩
  · have h := call_go_success api c K maxRetries 0 hK
      (fun j hj => by simpa using herr j hj) (by simpa using hok)
    simpa [call_deepseek_llm] using h
  · have h := call_go_exhaust api maxRetries 0 e
      (fun j hj => by simpa using herr j hj) (by simpa using hlast)
    simpa [call_deepseek_llm] using h
  · cases maxRetries with
    | zero => simp [call_deepseek_llm, call_deepseek_llm_go, h0]
    | succ f => simp [call_deepseek_llm, call_deepseek_llm_go, h0, hperm]

/-- C3 witness: a transient failure then a success gives one retry with a
one-second backoff; two sustained transient failures after the first
attempt exhaust `max_retries = 2` with backoffs 1 and 2 and raise after 3
attempts; a permanent failure raises after 1 attempt with no retry. -/
theorem C3_retry_semantics_witness :
    call_deepseek_llm apiRecover 3 = (.ok "ok", [1])
  ∧ call_deepseek_llm apiTimeouts 2 =
      (.error (deepseekFailMsg 3 "Connection timeout"), [1, 2])
  ∧ call_deepseek_llm apiPermanent 3 =
      (.error (deepseekFailMsg 1 "Invalid API key"), []) := by
  refine ⟨?_, ?_, ?_⟩
  · have h := (C3_retry_semantics apiRecover 3).1 1 "ok" (by omega)
      (fun j hj => by
        have hj0 : j = 0 := by omega
        subst hj0
        exact ⟨"Connection timeout", rfl, by decide⟩)
      rfl
    have hr : (List.range 1).map (fun j => 2 ^ j) = [1] := by decide
    rw [h, hr]
  · have h := (C3_retry_semantics apiTimeouts 2).2.1 "Connection timeout"
      (fun j _ => ⟨"Connection timeout", rfl, by decide⟩) rfl
    have hr : (List.range 2).map (fun j => 2 ^ j) = [1, 2] := by decide
    rw [h, hr]
  · exact (C3_retry_semantics apiPermanent 3).2.2 "Invalid API key" rfl (by decide)

theorem isTransientErr_iff (e : String) :
    isTransientErr e = true ↔
      (containsSub (lowerStr e) "rate limit" = true ∨
       containsSub (lowerStr e) "timeout" = true ∨
       containsSub (lowerStr e) "connection" = true ∨
       containsSub (lowerStr e) "temporary" = true ∨
       containsSub (lowerStr e) "try again" = true) := by
  simp [isTransientErr, transientKeywords]

theorem call_go_error_step (api : Nat → Except String String) (attempt f : Nat)
    (e : String) (h : api attempt = .error e) :
    call_deepseek_llm_go api attempt (f + 1) =
      (if isTransientErr e then
        ((call_deepseek_llm_go api (attempt + 1) f).1,
          2 ^ attempt :: (call_deepseek_llm_go api (attempt + 1) f).2)
      else (.error (deepseekFailMsg (attempt + 1) e), [])) := by
  conv_lhs => rw [call_deepseek_llm_go]
  rw [h]

/-- C10: for a first-attempt failure rendered as `e` and a positive retry
budget, `call_deepseek_llm` performs at least one retry exactly when the
lowercased rendering of the exception contains one of the five substrings
"rate limit", "timeout", "connection", "temporary", "try again"; an error
lacking all five is raised immediately, whatever its cause. -/
theorem C10_transient_classification (api : Nat → Except String String)
    (maxRetries : Nat) (e : String) (hmr : 1 ≤ maxRetries) (h0 : api 0 = .error e) :
    (call_deepseek_llm api maxRetries).2 ≠ [] ↔
      (containsSub (lowerStr e) "rate limit" = true ∨
       containsSub (lowerStr e) "timeout" = true ∨
       containsSub (lowerStr e) "connection" = true ∨
       containsSub (lowerStr e) "temporary" = true ∨
       containsSub (lowerStr e) "try again" = true) := by
  obtain ⟨f, rfl⟩ : ∃ f, maxRetries = f + 1 := ⟨maxRetries - 1, by omega⟩
  rw [← isTransientErr_iff, call_deepseek_llm, call_go_error_step api 0 f e h0]
  rcases Bool.eq_false_or_eq_true (isTransientErr e) with ht | ht
  · simp [ht]
  · simp [ht]

/-- C10 witness: a first-attempt "Connection timeout" failure with a
positive retry budget is retried. -/
theorem C10_transient_classification_witness :
    (call_deepseek_llm apiTimeouts 1).2 ≠ [] :=
  (C10_transient_classification apiTimeouts 1 "Connection timeout" (by omega) rfl).mpr
    (Or.inr (Or.inl (by decide)))

/-- C5 (counterexample): the mapping with `tasks` bound to the number `5`
is missing both `risks` and `milestones`, yet validation fails (pydantic
rejects the ill-typed present `tasks` field), so the claim that every
mapping missing one or more core keys validates successfully is false. -/
theorem C5_counterexample :
    lookupJ [("tasks", Json.num "5")] "risks" = none
  ∧ lookupJ [("tasks", Json.num "5")] "milestones" = none
  ∧ isOkE (validatePlan (Json.obj [("tasks", Json.num "5")])) = false :=
  ⟨rfl, rfl, rfl⟩

/-- C5 (amended): every JSON value that is not a mapping fails validation
with the unpacking `TypeError`; every mapping whose present core keys are
well-typed validates successfully — whatever extra keys it carries — and
each absent core key is supplied as `[]` in the validated plan. -/
theorem C5_plan_validation :
    (∀ j : Json, isObjJ j = false → ∃ m, validatePlan j = .error (.notMapping m))
  ∧ (∀ kvs : List (String × Json),
      (∀ v, lookupJ kvs "tasks" = some v → checkDictList v = true) →
      (∀ v, lookupJ kvs "risks" = some v → checkStrList v = true) →
      (∀ v, lookupJ kvs "milestones" = some v → checkDictList v = true) →
      ∃ pd, validatePlan (Json.obj kvs) = .ok pd ∧
        (∀ k, k ∈ coreKeys → lookupJ kvs k = none →
          lookupJ pd k = some (Json.arr []))) := by
  constructor
  · intro j h
    cases j with
    | obj kvs => simp [isObjJ] at h
    | null => exact ⟨_, rfl⟩
    | bool b => exact ⟨_, rfl⟩
    | num lx => exact ⟨_, rfl⟩
    | str s => exact ⟨_, rfl⟩
    | arr xs => exact ⟨_, rfl⟩
  · intro kvs h1 h2 h3
    have ht : ∃ t, fieldOk kvs "tasks" checkDictList = .ok t ∧
        (lookupJ kvs "tasks" = none → t = Json.arr []) := by
      cases hl : lookupJ kvs "tasks" with
      | none => exact ⟨Json.arr [], by simp [fieldOk, hl], fun _ => rfl⟩
      | some v =>
        exact ⟨v, by simp [fieldOk, hl, h1 v hl],
          fun hnone => by cases hnone⟩
    have hr : ∃ r, fieldOk kvs "risks" checkStrList = .ok r ∧
        (lookupJ kvs "risks" = none → r = Json.arr []) := by
      cases hl : lookupJ kvs "risks" with
      | none => exact ⟨Json.arr [], by simp [fieldOk, hl], fun _ => rfl⟩
      | some v =>
        exact ⟨v, by simp [fieldOk, hl, h2 v hl],
          fun hnone => by cases hnone⟩
    have hm : ∃ m, fieldOk kvs "milestones" checkDictList = .ok m ∧
        (lookupJ kvs "milestones" = none → m = Json.arr []) := by
      cases hl : lookupJ kvs "milestones" with
      | none => exact ⟨Json.arr [], by simp [fieldOk, hl], fun _ => rfl⟩
      | some v =>
        exact ⟨v, by simp [fieldOk, hl, h3 v hl],
          fun hnone => by cases hnone⟩
    obtain ⟨t, htok, htdef⟩ := ht
    obtain ⟨r, hrok, hrdef⟩ := hr
    obtain ⟨m, hmok, hmdef⟩ := hm
    refine ⟨("tasks", t) :: ("risks", r) :: ("milestones", m) ::
      kvs.filter (fun kv => kv.1 != "tasks" && kv.1 != "risks" && kv.1 != "milestones"),
      by simp [validatePlan, htok, hrok, hmok], ?_⟩
    intro k hk hnone
    simp only [coreKeys, List.mem_cons, List.mem_singleton, List.not_mem_nil, or_false] at hk
    rcases hk with rfl | rfl | rfl
    · simp [lookupJ, htdef hnone]
    · simp [lookupJ, hrdef hnone]
    · simp [lookupJ, hmdef hnone]

/-- C5 witness: the mapping with only an extra key and a well-typed
`risks` list validates, and both absent core keys are supplied as `[]`. -/
theorem C5_plan_validation_witness :
    ∃ pd, validatePlan (Json.obj exC5Kvs) = .ok pd ∧
      (∀ k, k ∈ coreKeys → lookupJ exC5Kvs k = none →
        lookupJ pd k = some (Json.arr [])) := by
  refine C5_plan_validation.2 exC5Kvs ?_ ?_ ?_
  · intro v hv
    exact Option.noConfusion hv
  · intro v hv
    cases show some (Json.arr [Json.str "late"]) = some v from hv
    decide
  · intro v hv
    exact Option.noConfusion hv

theorem lookupJ_filter_ne (kvs : List (String × Json)) (k : String)
    (h1 : k ≠ "tasks") (h2 : k ≠ "risks") (h3 : k ≠ "milestones") :
    lookupJ (kvs.filter fun kv =>
      kv.1 != "tasks" && kv.1 != "risks" && kv.1 != "milestones") k = lookupJ kvs k := by
  induction kvs with
  | nil => rfl
  | cons kv rest ih =>
    obtain ⟨k', v⟩ := kv
    by_cases hk : k' = k
    · subst hk
      have hkeep : (k' != "tasks" && k' != "risks" && k' != "milestones") = true := by
        simp [h1, h2, h3]
      simp [List.filter_cons, hkeep, lookupJ]
    · by_cases hcore : (k' != "tasks" && k' != "risks" && k' != "milestones") = true
      · simp [List.filter_cons, hcore, lookupJ, hk, ih]
      · simp [List.filter_cons, hcore, lookupJ, hk, ih]

/-- C6: validation is idempotent on a well-formed plan: when `tasks` and
`milestones` hold lists of mappings and `risks` holds a list of strings,
validation succeeds and the validated plan is extensionally equal to the
input mapping — the three core keys pass through unchanged and every
extra top-level key keeps its value. -/
theorem C6_validate_idempotent (kvs : List (String × Json)) (ts rs ms : List Json)
    (ht : lookupJ kvs "tasks" = some (Json.arr ts)) (htw : ts.all isObjJ = true)
    (hr : lookupJ kvs "risks" = some (Json.arr rs)) (hrw : rs.all isStrJ = true)
    (hm : lookupJ kvs "milestones" = some (Json.arr ms)) (hmw : ms.all isObjJ = true) :
    ∃ pd, validatePlan (Json.obj kvs) = .ok pd ∧
      ∀ k, lookupJ pd k = lookupJ kvs k := by
  have hft : fieldOk kvs "tasks" checkDictList = .ok (Json.arr ts) := by
    simp [fieldOk, ht, checkDictList, htw]
  have hfr : fieldOk kvs "risks" checkStrList = .ok (Json.arr rs) := by
    simp [fieldOk, hr, checkStrList, hrw]
  have hfm : fieldOk kvs "milestones" checkDictList = .ok (Json.arr ms) := by
    simp [fieldOk, hm, checkDictList, hmw]
  refine ⟨("tasks", Json.arr ts) :: ("risks", Json.arr rs) :: ("milestones", Json.arr ms) ::
      kvs.filter (fun kv => kv.1 != "tasks" && kv.1 != "risks" && kv.1 != "milestones"),
    by simp [validatePlan, hft, hfr, hfm], ?_⟩
  intro k
  by_cases h1 : k = "tasks"
  · subst h1
    simp [lookupJ, ht]
  · by_cases h2 : k = "risks"
    · subst h2
      simp [lookupJ, hr]
    · by_cases h3 : k = "milestones"
      · subst h3
        simp [lookupJ, hm]
      · simp [lookupJ, Ne.symm h1, Ne.symm h2, Ne.symm h3,
          lookupJ_filter_ne kvs k h1 h2 h3]

/-- C6 witness: a concrete well-formed plan with an extra `owner` key
validates to an extensionally equal mapping. -/
theorem C6_validate_idempotent_witness :
    ∃ pd, validatePlan (Json.obj exPlanKvs) = .ok pd ∧
      ∀ k, lookupJ pd k = lookupJ exPlanKvs k :=
  C6_validate_idempotent exPlanKvs _ _ _ rfl (by decide) rfl (by decide) rfl (by decide)

/-- C4: a plan-update request for a project id that does not exist in
storage yields the 404 Not Found response, leaves the database unchanged,
and never invokes the LLM client. -/
theorem C4_update_not_found (db : List ProjectRow) (pid : Nat) (txt : String)
    (raw : Except String String) (hfind : findProject db pid = none) :
    update_project_state db pid txt raw =
      ⟨.error ⟨404, "Project not found"⟩, db, false⟩ := by
  simp [update_project_state, hfind]

/-- C4 witness: an update request for the absent project id 99999. -/
theorem C4_update_not_found_witness :
    update_project_state exDbNull 99999 "add task x" (.ok "irrelevant") =
      ⟨.error ⟨404, "Project not found"⟩, exDbNull, false⟩ :=
  C4_update_not_found exDbNull 99999 "add task x" (.ok "irrelevant") rfl

/-- C2: when the LLM returns the literal text "not json" in JSON mode
during a plan update of an existing project, the pipeline responds with a
500 whose detail contains the raw model response, and the stored database
— in particular the stored plan of the project — is unchanged. -/
theorem C2_update_invalid_json (db : List ProjectRow) (pid : Nat) (txt : String)
    (p : ProjectRow) (cur : Json) (hfind : findProject db pid = some p)
    (hload : load_current_plan p.plan_json = .ok cur) :
    (update_project_state db pid txt (.ok "not json")).db = db
  ∧ ∃ d, (update_project_state db pid txt (.ok "not json")).response = .error ⟨500, d⟩
      ∧ containsSub d "not json" = true := by
  have hjson : jsonLoads "not json" = .error "Expecting value" := rfl
  have hsu : state_updater_llm cur txt (.ok "not json") =
      .error "LLM returned invalid JSON: Expecting value\nResponse: not json" := by
    simp [state_updater_llm, hjson]
  refine ⟨?_, "LLM State Update failed: " ++
      "LLM returned invalid JSON: Expecting value\nResponse: not json", ?_, by decide⟩
  · simp [update_project_state, hfind, hload, hsu]
  · simp [update_project_state, hfind, hload, hsu]

/-- C2 witness: the invalid-JSON update scenario on a concrete one-project
database whose stored plan is NULL. -/
theorem C2_update_invalid_json_witness :
    (update_project_state exDbNull 1 "add task Buy groceries" (.ok "not json")).db = exDbNull
  ∧ ∃ d, (update_project_state exDbNull 1 "add task Buy groceries"
        (.ok "not json")).response = .error ⟨500, d⟩
      ∧ containsSub d "not json" = true :=
  C2_update_invalid_json exDbNull 1 "add task Buy groceries" exRowNull emptyPlanJson rfl rfl

/-- C7: the recommendation pipeline never persists anything: every single
invocation returns the database unchanged, whatever the project, question
and LLM outcome, and hence any number of successive invocations leaves
the stored plan unchanged. -/
theorem C7_recommend_no_persistence :
    (∀ (db : List ProjectRow) (pid : Nat) (q : String) (raw : Except String String),
        (recommend_project_state db pid q raw).2 = db)
  ∧ (∀ (n : Nat) (db : List ProjectRow) (pid : Nat) (q : String)
        (raw : Except String String),
        recommend_times n db pid q raw = db) := by
  have h1 : ∀ (db : List ProjectRow) (pid : Nat) (q : String) (raw : Except String String),
      (recommend_project_state db pid q raw).2 = db := by
    intro db pid q raw
    rcases hf : findProject db pid with _ | p
    · simp [recommend_project_state, hf]
    · rcases hl : load_current_plan p.plan_json with e | cur
      · simp [recommend_project_state, hf, hl]
      · rcases hr : recommender_llm cur q raw with e | md <;>
          simp [recommend_project_state, hf, hl, hr]
  refine ⟨h1, ?_⟩
  intro n
  induction n with
  | zero => intro db pid q raw; rfl
  | succ m ih =>
    intro db pid q raw
    have hstep : recommend_times (m + 1) db pid q raw =
        recommend_times m ((recommend_project_state db pid q raw).2) pid q raw := rfl
    rw [hstep, h1, ih]

theorem findProject_setPlanJson (pid : Nat) (p : ProjectRow) (pj : Option String) :
    ∀ db : List ProjectRow, findProject db pid = some p →
      findProject (setPlanJson db pid pj) pid = some { p with plan_json := pj }
  | [], hfind => by cases hfind
  | r :: rest, hfind => by
    by_cases hr : (r.id == pid) = true
    · have hfind' : some r = some p := by simpa [findProject, hr] using hfind
      cases hfind'
      simp [setPlanJson, findProject, hr]
    · have hfind' : findProject rest pid = some p := by
        simpa [findProject, hr] using hfind
      have ih := findProject_setPlanJson pid p pj rest hfind'
      simpa [setPlanJson, findProject, hr] using ih

/-- C9: the plan-reading endpoints substitute the empty plan for a NULL or
empty stored `plan_json` (which the storage column, being nullable,
permits): the shared loading step yields the empty plan in both cases, and
each of `get_project`, `update_project_state` and
`recommend_project_state` then responds exactly as it would had the
serialized empty plan been stored, so callers always observe a
fully-present plan. -/
theorem C9_null_plan_defaulted :
    (load_current_plan none = .ok emptyPlanJson
      ∧ load_current_plan (some "") = .ok emptyPlanJson)
  ∧ (∀ (db : List ProjectRow) (pid : Nat) (p : ProjectRow),
      findProject db pid = some p →
      p.plan_json = none ∨ p.plan_json = some "" →
      (get_project db pid =
          get_project (setPlanJson db pid (some (dumpJson emptyPlanJson))) pid)
      ∧ (∀ (txt : String) (raw : Except String String),
          (update_project_state db pid txt raw).response =
            (update_project_state (setPlanJson db pid (some (dumpJson emptyPlanJson)))
              pid txt raw).response)
      ∧ (∀ (q : String) (raw : Except String String),
          (recommend_project_state db pid q raw).1 =
            (recommend_project_state (setPlanJson db pid (some (dumpJson emptyPlanJson)))
              pid q raw).1)) := by
  refine ⟨⟨rfl, rfl⟩, ?_⟩
  intro db pid p hfind hempty
  have hset := findProject_setPlanJson pid p (some (dumpJson emptyPlanJson)) db hfind
  have hl : load_current_plan p.plan_json = .ok emptyPlanJson := by
    rcases hempty with h | h <;> rw [h] <;> rfl
  have hl2 : load_current_plan (some (dumpJson emptyPlanJson)) = .ok emptyPlanJson := rfl
  refine ⟨?_, fun txt raw => ?_, fun q raw => ?_⟩
  · simp [get_project, hfind, hset, hl, hl2]
  · rcases hsu : state_updater_llm emptyPlanJson txt raw with e | np <;>
      simp [update_project_state, hfind, hset, hl, hl2, hsu]
  · rcases hre : recommender_llm emptyPlanJson q raw with e | md <;>
      simp [recommend_project_state, hfind, hset, hl, hl2, hre]

/-- C9 witness: reading the NULL-plan demo project gives the same response
as reading it with the serialized empty plan stored. -/
theorem C9_null_plan_defaulted_witness :
    get_project exDbNull 1 =
      get_project (setPlanJson exDbNull 1 (some (dumpJson emptyPlanJson))) 1 :=
  (C9_null_plan_defaulted.2 exDbNull 1 exRowNull rfl (Or.inl rfl)).1
